import Mathlib

/-!
Verification of the batch command processor (bulkmt).

The development shallowly embeds `src/command_processor.h`. Machine state is
modelled by explicit records; every engine operation returns the new state
together with the list of observable events it produced, in program order:
`update` is a call of a subscriber's `update` (the notify fan-out),
`flushAction` is a call of a subscriber's `ProcessCommand` (its flush-time
side effect) carrying the snapshot the subscriber holds at that moment,
`flushBatch` marks a dump of a non-empty pending batch with its contents,
`startBlockCall` / `finishBlockCall` mark the hold transitions, and
`unsubscribeEv` marks the release of a subscriber handle at teardown.
The concurrent flush fan-out of the C++ (one thread per subscriber, joined
before the batch is cleared) is modelled sequentially in registry order: all
`flushAction` events of one dump precede the clearing and the empty notify,
which is exactly the join barrier's observable guarantee.
-/

/-- The reserved block-open marker (`START_BLOCK` in the source). -/
def START_BLOCK : String := "\x7b"

/-- The reserved block-close marker (`END_BLOCK` in the source). -/
def END_BLOCK : String := "\x7d"

/-- The output prefix constant (`BULK` in the source). -/
def BULK : String := "bulk: "

/-- `struct Command`: text plus a creation timestamp (seconds since epoch). -/
structure Command where
  text : String
  timeStamp : Nat
  deriving DecidableEq, Repr

/-- A subscriber handle with its stored snapshot (`Output::m_commands`,
set by `Output::update`). `id` identifies the handle; in the wired session
id 0 is the `ReportWriter` and id 1 the `ConsoleOutput`. -/
structure SubState where
  id : Nat
  m_commands : List Command
  deriving DecidableEq, Repr

/-- Observable events, in program order. -/
inductive Event where
  | update (sub : Nat) (snapshot : List Command)
  | flushBatch (batch : List Command)
  | flushAction (sub : Nat) (snapshot : List Command)
  | startBlockCall
  | finishBlockCall
  | unsubscribeEv (sub : Nat)
  deriving DecidableEq, Repr

/-- State of `class BatchCommandProcessor`. -/
structure BatchCommandProcessor where
  m_bulkSize : Nat
  m_blockForced : Bool
  m_commands : List Command
  m_subscribers : List SubState
  deriving DecidableEq, Repr

/-- `BatchCommandProcessor::notify`: every subscriber's `update` is called
with the current pending batch, which it stores as its snapshot. -/
def BatchCommandProcessor.notify (e : BatchCommandProcessor) :
    BatchCommandProcessor × List Event :=
  ({ e with m_subscribers :=
      e.m_subscribers.map fun s => { s with m_commands := e.m_commands } },
   e.m_subscribers.map fun s => Event.update s.id e.m_commands)

/-- `BatchCommandProcessor::ClearBatch`: clear the pending batch, then
notify. -/
def BatchCommandProcessor.ClearBatch (e : BatchCommandProcessor) :
    BatchCommandProcessor × List Event :=
  BatchCommandProcessor.notify { e with m_commands := [] }

/-- `BatchCommandProcessor::DumpBatch`: if the pending batch is non-empty,
run every subscriber's flush action (one thread each, joined — modelled as
the ordered `flushAction` events, each carrying the snapshot that subscriber
holds); then unconditionally `ClearBatch` (clear + notify). -/
def BatchCommandProcessor.DumpBatch (e : BatchCommandProcessor) :
    BatchCommandProcessor × List Event :=
  ((BatchCommandProcessor.ClearBatch e).1,
   (if e.m_commands.isEmpty then []
    else Event.flushBatch e.m_commands ::
      e.m_subscribers.map fun s => Event.flushAction s.id s.m_commands)
   ++ (BatchCommandProcessor.ClearBatch e).2)

/-- `BatchCommandProcessor::StartBlock`: set the forced-hold flag, then
dump whatever is pending. -/
def BatchCommandProcessor.StartBlock (e : BatchCommandProcessor) :
    BatchCommandProcessor × List Event :=
  ((BatchCommandProcessor.DumpBatch { e with m_blockForced := true }).1,
   Event.startBlockCall ::
     (BatchCommandProcessor.DumpBatch { e with m_blockForced := true }).2)

/-- `BatchCommandProcessor::FinishBlock`: clear the forced-hold flag, then
dump whatever is pending. -/
def BatchCommandProcessor.FinishBlock (e : BatchCommandProcessor) :
    BatchCommandProcessor × List Event :=
  ((BatchCommandProcessor.DumpBatch { e with m_blockForced := false }).1,
   Event.finishBlockCall ::
     (BatchCommandProcessor.DumpBatch { e with m_blockForced := false }).2)

/-- `BatchCommandProcessor::ProcessCommand`: push the command, notify, and
if the hold flag is clear and the pending size reached the threshold,
dump the batch. -/
def BatchCommandProcessor.ProcessCommand (e : BatchCommandProcessor)
    (c : Command) : BatchCommandProcessor × List Event :=
  let n := BatchCommandProcessor.notify { e with m_commands := e.m_commands ++ [c] }
  if n.1.m_blockForced = false ∧ n.1.m_bulkSize ≤ n.1.m_commands.length then
    ((BatchCommandProcessor.DumpBatch n.1).1,
     n.2 ++ (BatchCommandProcessor.DumpBatch n.1).2)
  else n

/-- `BatchCommandProcessor::~BatchCommandProcessor`: if the hold flag is
clear, one final dump of the pending batch; then every subscriber handle is
released. -/
def BatchCommandProcessor.destructor (e : BatchCommandProcessor) :
    BatchCommandProcessor × List Event :=
  let d := if e.m_blockForced then (e, ([] : List Event))
           else BatchCommandProcessor.DumpBatch e
  ({ d.1 with m_subscribers := [] },
   d.2 ++ d.1.m_subscribers.map fun s => Event.unsubscribeEv s.id)

/-- State of `class BatchConsoleInput`: the block-nesting counter (a C++
`int`, hence `Int`) and the owned engine. -/
structure BatchConsoleInput where
  m_blockDepth : Int
  m_commandProcessor : BatchCommandProcessor
  deriving DecidableEq, Repr

/-- `BatchConsoleInput::ProcessCommand`: an open marker increments the depth
and, when the old depth was 0 (`m_blockDepth++ == 0`), calls `StartBlock`;
a close marker decrements the depth and, when the new depth is 0
(`--m_blockDepth == 0`), calls `FinishBlock`; anything else is forwarded to
the engine. -/
def BatchConsoleInput.ProcessCommand (s : BatchConsoleInput) (c : Command) :
    BatchConsoleInput × List Event :=
  if c.text = START_BLOCK then
    (if s.m_blockDepth = 0 then
      ({ m_blockDepth := s.m_blockDepth + 1,
         m_commandProcessor := (s.m_commandProcessor.StartBlock).1 },
       (s.m_commandProcessor.StartBlock).2)
    else
      ({ s with m_blockDepth := s.m_blockDepth + 1 }, []))
  else if c.text = END_BLOCK then
    (if s.m_blockDepth - 1 = 0 then
      ({ m_blockDepth := s.m_blockDepth - 1,
         m_commandProcessor := (s.m_commandProcessor.FinishBlock).1 },
       (s.m_commandProcessor.FinishBlock).2)
    else
      ({ s with m_blockDepth := s.m_blockDepth - 1 }, []))
  else
    ({ s with m_commandProcessor := (s.m_commandProcessor.ProcessCommand c).1 },
     (s.m_commandProcessor.ProcessCommand c).2)

/-- Sequential processing of a list of command lines by the session
(`async::receive` feeds lines one by one). -/
def BatchConsoleInput.runAll (s : BatchConsoleInput) :
    List Command → BatchConsoleInput × List Event
  | [] => (s, [])
  | c :: cs =>
      ((BatchConsoleInput.runAll (s.ProcessCommand c).1 cs).1,
       (s.ProcessCommand c).2 ++
         (BatchConsoleInput.runAll (s.ProcessCommand c).1 cs).2)

/-- `async::connect` / the `BatchConsoleInput` constructor: a fresh session
whose engine has the given threshold and two subscribers registered before
any command is processed — the `ReportWriter` (id 0) and the
`ConsoleOutput` (id 1), both with an empty stored snapshot. -/
def connect (bulk : Nat) : BatchConsoleInput :=
  { m_blockDepth := 0,
    m_commandProcessor :=
      { m_bulkSize := bulk, m_blockForced := false, m_commands := [],
        m_subscribers :=
          [{ id := 0, m_commands := [] }, { id := 1, m_commands := [] }] } }

/-- `async::receive` on a whole input followed by `async::disconnect`
(which destroys the session, running the engine destructor): the full
observable trace of one session lifetime. -/
def BatchConsoleInput.runAndDisconnect (s : BatchConsoleInput)
    (cs : List Command) : List Event :=
  (s.runAll cs).2 ++
    (BatchCommandProcessor.destructor (s.runAll cs).1.m_commandProcessor).2

/-- `ReportWriter::GetFilename`: builds the log file name from the first
command's timestamp and the thread id. The source indexes `m_commands[0]`
unconditionally; the empty-snapshot case models that out-of-bounds access
as `none`. -/
def ReportWriter.GetFilename (m_commands : List Command) (tid : Nat) :
    Option String :=
  match m_commands with
  | [] => none
  | c :: _ => some ("bulk" ++ toString c.timeStamp ++ "_" ++ toString tid ++ ".log")

/-- The batches actually dumped in a trace, in flush order. -/
def flushedBatches (evs : List Event) : List (List Command) :=
  evs.filterMap fun ev =>
    match ev with
    | Event.flushBatch b => some b
    | _ => none

/-- Commands of a line sequence that are neither marker: exactly those the
session forwards to the engine. -/
def passthroughs (cs : List Command) : List Command :=
  cs.filter fun c => !(c.text == START_BLOCK) && !(c.text == END_BLOCK)

/-- Proper nesting of a marker sequence relative to a surrounding open
block at relative depth `d`: every close marker has a matching earlier open
and the sequence returns to relative depth 0. -/
def nestedOK : Nat → List Command → Bool
  | d, [] => d == 0
  | d, c :: cs =>
      if c.text = START_BLOCK then nestedOK (d + 1) cs
      else if c.text = END_BLOCK then
        if d = 0 then false else nestedOK (d - 1) cs
      else nestedOK d cs

/-- Every registered subscriber's stored snapshot equals the engine's
current pending batch — the state every `notify` (re)establishes. -/
def SnapshotsCurrent (e : BatchCommandProcessor) : Prop :=
  ∀ sub ∈ e.m_subscribers, sub.m_commands = e.m_commands

/-- No subscriber flush action in the trace runs with an empty snapshot —
the property that keeps `ReportWriter::GetFilename`'s access to element 0
of its snapshot in bounds. -/
def NoEmptyFlushAction (evs : List Event) : Prop :=
  ∀ sub snap, Event.flushAction sub snap ∈ evs → snap ≠ []

/-! ### Basic trace lemmas -/

theorem flushedBatches_append (a b : List Event) :
    flushedBatches (a ++ b) = flushedBatches a ++ flushedBatches b := by
  simp [flushedBatches]

theorem flushedBatches_update_map (l : List SubState) (snap : List Command) :
    flushedBatches (l.map fun s => Event.update s.id snap) = [] := by
  induction l with
  | nil => rfl
  | cons a t _ => simp [flushedBatches, List.filterMap_cons]

theorem flushedBatches_flushAction_map (l : List SubState) :
    flushedBatches (l.map fun s => Event.flushAction s.id s.m_commands) = [] := by
  induction l with
  | nil => rfl
  | cons a t _ => simp [flushedBatches, List.filterMap_cons]

theorem flushedBatches_cons_flushBatch (b : List Command) (evs : List Event) :
    flushedBatches (Event.flushBatch b :: evs) = b :: flushedBatches evs := by
  simp [flushedBatches, List.filterMap_cons]

theorem dumpBatch_events (e : BatchCommandProcessor) :
    (BatchCommandProcessor.DumpBatch e).2 =
      (if e.m_commands.isEmpty then [] else
        Event.flushBatch e.m_commands ::
          e.m_subscribers.map fun s => Event.flushAction s.id s.m_commands)
      ++ e.m_subscribers.map fun s => Event.update s.id [] := rfl

theorem dumpBatch_state (e : BatchCommandProcessor) :
    (BatchCommandProcessor.DumpBatch e).1 =
      { e with
        m_commands := []
        m_subscribers := e.m_subscribers.map fun s => { s with m_commands := [] } } := rfl

theorem flushedBatches_dump (e : BatchCommandProcessor) :
    flushedBatches (BatchCommandProcessor.DumpBatch e).2 =
      if e.m_commands.isEmpty then [] else [e.m_commands] := by
  rw [dumpBatch_events, flushedBatches_append, flushedBatches_update_map]
  cases h : e.m_commands.isEmpty with
  | true => simp [flushedBatches]
  | false =>
      rw [if_neg (by simp [h]), if_neg (by simp [h]),
        flushedBatches_cons_flushBatch, flushedBatches_flushAction_map]
      simp

theorem flushedBatches_cons_startBlockCall (evs : List Event) :
    flushedBatches (Event.startBlockCall :: evs) = flushedBatches evs := by
  simp [flushedBatches, List.filterMap_cons]

theorem flushedBatches_cons_finishBlockCall (evs : List Event) :
    flushedBatches (Event.finishBlockCall :: evs) = flushedBatches evs := by
  simp [flushedBatches, List.filterMap_cons]

theorem flushAction_not_mem_update_map (l : List SubState)
    (snap : List Command) (sub : Nat) (snap2 : List Command) :
    Event.flushAction sub snap2 ∉ l.map fun s => Event.update s.id snap := by
  simp [List.mem_map]

/-! ### C1 -/

/-- C1 counterexample: the claim says the session's `m_blockDepth` never
goes negative, a close at depth 0 leaving it at 0; but processing a single
close-marker line on a fresh session drives `m_blockDepth` below zero
(`--m_blockDepth` underflows to -1). -/
theorem C1_counterexample :
    (((connect 3).ProcessCommand { text := END_BLOCK, timeStamp := 0 }).1).m_blockDepth < 0 := by
  decide

/-- C1 (amended): a close-marker line processed at depth 0 does not trigger
a flush or any hold change — the engine state is untouched and no event is
produced — but the depth does underflow: it becomes -1, not 0. -/
theorem C1_close_at_depth_zero (s : BatchConsoleInput) (c : Command)
    (hd : s.m_blockDepth = 0) (hc : c.text = END_BLOCK) :
    (s.ProcessCommand c).1.m_blockDepth = -1 ∧
    (s.ProcessCommand c).2 = [] ∧
    (s.ProcessCommand c).1.m_commandProcessor = s.m_commandProcessor := by
  have hne : ¬ c.text = START_BLOCK := by rw [hc]; decide
  rw [BatchConsoleInput.ProcessCommand, if_neg hne, if_pos hc, hd]
  norm_num

/-- C1 witness: the amended statement at a fresh session and a concrete
close-marker command. -/
theorem C1_close_at_depth_zero_witness :
    ((connect 3).ProcessCommand { text := END_BLOCK, timeStamp := 0 }).1.m_blockDepth = -1 ∧
    ((connect 3).ProcessCommand { text := END_BLOCK, timeStamp := 0 }).2 = [] ∧
    ((connect 3).ProcessCommand { text := END_BLOCK, timeStamp := 0 }).1.m_commandProcessor =
      (connect 3).m_commandProcessor :=
  C1_close_at_depth_zero (connect 3) { text := END_BLOCK, timeStamp := 0 } rfl rfl

/-! ### C2 -/

/-- C2 counterexample: the claim says a flush of an empty pending batch
sends no notification to any subscriber; but `DumpBatch` on the fresh wired
engine (empty batch, two subscribers) calls `ClearBatch`, which notifies
both subscribers with the empty snapshot. -/
theorem C2_counterexample :
    (BatchCommandProcessor.DumpBatch (connect 3).m_commandProcessor).2 =
      [Event.update 0 [], Event.update 1 []] := by
  rfl

/-- C2 (amended): a flush of an empty pending batch invokes no subscriber
flush action and dumps no batch, but it does notify every subscriber with
the (empty) snapshot; the pending batch stays empty. -/
theorem C2_empty_flush (e : BatchCommandProcessor) (h : e.m_commands = []) :
    (BatchCommandProcessor.DumpBatch e).2 =
      e.m_subscribers.map (fun s => Event.update s.id []) ∧
    (∀ sub snap, Event.flushAction sub snap ∉ (BatchCommandProcessor.DumpBatch e).2) ∧
    flushedBatches (BatchCommandProcessor.DumpBatch e).2 = [] ∧
    (BatchCommandProcessor.DumpBatch e).1.m_commands = [] := by
  have hE : e.m_commands.isEmpty = true := by simp [h]
  have hev : (BatchCommandProcessor.DumpBatch e).2 =
      e.m_subscribers.map (fun s => Event.update s.id []) := by
    rw [dumpBatch_events, hE]
    simp
  refine ⟨hev, ?_, ?_, rfl⟩
  · intro sub snap
    rw [hev]
    exact flushAction_not_mem_update_map e.m_subscribers [] sub snap
  · rw [flushedBatches_dump, hE]
    simp

/-- C2 witness: the amended statement at the fresh wired engine with
threshold 4 (empty pending batch, two subscribers). -/
theorem C2_empty_flush_witness :
    (BatchCommandProcessor.DumpBatch (connect 4).m_commandProcessor).2 =
      (connect 4).m_commandProcessor.m_subscribers.map (fun s => Event.update s.id []) ∧
    (∀ sub snap, Event.flushAction sub snap ∉
      (BatchCommandProcessor.DumpBatch (connect 4).m_commandProcessor).2) ∧
    flushedBatches (BatchCommandProcessor.DumpBatch (connect 4).m_commandProcessor).2 = [] ∧
    (BatchCommandProcessor.DumpBatch (connect 4).m_commandProcessor).1.m_commands = [] :=
  C2_empty_flush (connect 4).m_commandProcessor rfl

/-! ### C7 -/

/-- C7: `StartBlock` sets the forced-hold flag to true and flushes whatever
is pending (so the block boundary starts with an empty pending batch), and
`FinishBlock` sets the flag to false and flushes whatever is pending — in
both cases the pending batch is dumped exactly when it is non-empty,
irrespective of the size threshold, and ends empty. -/
theorem C7_hold_transitions_flush (e : BatchCommandProcessor) :
    (BatchCommandProcessor.StartBlock e).1.m_blockForced = true ∧
    (BatchCommandProcessor.StartBlock e).1.m_commands = [] ∧
    flushedBatches (BatchCommandProcessor.StartBlock e).2 =
      (if e.m_commands.isEmpty then [] else [e.m_commands]) ∧
    (BatchCommandProcessor.FinishBlock e).1.m_blockForced = false ∧
    (BatchCommandProcessor.FinishBlock e).1.m_commands = [] ∧
    flushedBatches (BatchCommandProcessor.FinishBlock e).2 =
      (if e.m_commands.isEmpty then [] else [e.m_commands]) := by
  refine ⟨rfl, rfl, ?_, rfl, rfl, ?_⟩
  · show flushedBatches (Event.startBlockCall ::
        (BatchCommandProcessor.DumpBatch { e with m_blockForced := true }).2) = _
    rw [flushedBatches_cons_startBlockCall, flushedBatches_dump]
  · show flushedBatches (Event.finishBlockCall ::
        (BatchCommandProcessor.DumpBatch { e with m_blockForced := false }).2) = _
    rw [flushedBatches_cons_finishBlockCall, flushedBatches_dump]

/-! ### C9 -/

/-- C9 counterexample: the claim says that for the input Open, Open, Close,
Close, flush happens once, at the outer Close; but on a fresh session the
pending batch is empty at both hold transitions, so no batch is ever dumped
and no subscriber flush action runs — the number of flushes is 0, not 1. -/
theorem C9_counterexample :
    flushedBatches (BatchConsoleInput.runAll (connect 3)
      [{ text := START_BLOCK, timeStamp := 0 }, { text := START_BLOCK, timeStamp := 0 },
       { text := END_BLOCK, timeStamp := 0 }, { text := END_BLOCK, timeStamp := 0 }]).2 = [] ∧
    (∀ sub snap, Event.flushAction sub snap ∉
      (BatchConsoleInput.runAll (connect 3)
        [{ text := START_BLOCK, timeStamp := 0 }, { text := START_BLOCK, timeStamp := 0 },
         { text := END_BLOCK, timeStamp := 0 }, { text := END_BLOCK, timeStamp := 0 }]).2) := by
  constructor
  · rfl
  · intro sub snap h
    revert h
    show Event.flushAction sub snap ∈
      [Event.startBlockCall, Event.update 0 [], Event.update 1 [],
       Event.finishBlockCall, Event.update 0 [], Event.update 1 []] → False
    intro h
    simp at h

/-- C9 (amended): for the input Open, Open, Close, Close on a fresh wired
session, only the outer pair triggers the hold transitions — `StartBlock` is
called exactly once, at the first Open, and `FinishBlock` exactly once, at
the last Close, the inner pair producing no event at all — and, the batch
being empty throughout, each of those two hold transitions performs an
empty flush: no subscriber flush action runs (zero flushes, not one), only
the empty-snapshot notifications of the two dumps are seen; the depth
returns to 0. -/
theorem C9_nested_markers_trace :
    (BatchConsoleInput.runAll (connect 3)
      [{ text := START_BLOCK, timeStamp := 0 }, { text := START_BLOCK, timeStamp := 0 },
       { text := END_BLOCK, timeStamp := 0 }, { text := END_BLOCK, timeStamp := 0 }]).2 =
      [Event.startBlockCall, Event.update 0 [], Event.update 1 [],
       Event.finishBlockCall, Event.update 0 [], Event.update 1 []] ∧
    (BatchConsoleInput.runAll (connect 3)
      [{ text := START_BLOCK, timeStamp := 0 }, { text := START_BLOCK, timeStamp := 0 },
       { text := END_BLOCK, timeStamp := 0 }, { text := END_BLOCK, timeStamp := 0 }]).1.m_blockDepth = 0 := by
  exact ⟨rfl, rfl⟩

/-! ### C4 -/

/-- C4: for every submitted command, `ProcessCommand` first appends it to
the pending batch, then notifies every subscriber with the full new pending
snapshot — on every submission, not only on flush — and only after those
notifications does it flush, exactly when the forced-hold flag is false and
the pending size has reached the threshold; otherwise the appended batch is
kept pending. -/
theorem C4_submit_order (e : BatchCommandProcessor) (c : Command) :
    (∃ tail : List Event,
      (e.ProcessCommand c).2 =
        (e.m_subscribers.map fun s => Event.update s.id (e.m_commands ++ [c])) ++ tail ∧
      flushedBatches tail =
        (if e.m_blockForced = false ∧ e.m_bulkSize ≤ e.m_commands.length + 1
         then [e.m_commands ++ [c]] else [])) ∧
    (e.ProcessCommand c).1.m_commands =
      (if e.m_blockForced = false ∧ e.m_bulkSize ≤ e.m_commands.length + 1
       then [] else e.m_commands ++ [c]) := by
  by_cases hcond : e.m_blockForced = false ∧ e.m_bulkSize ≤ e.m_commands.length + 1
  · have hcond' : ((BatchCommandProcessor.notify
        { e with m_commands := e.m_commands ++ [c] }).1.m_blockForced = false ∧
        (BatchCommandProcessor.notify
          { e with m_commands := e.m_commands ++ [c] }).1.m_bulkSize ≤
        (BatchCommandProcessor.notify
          { e with m_commands := e.m_commands ++ [c] }).1.m_commands.length) := by
      simpa [BatchCommandProcessor.notify] using hcond
    rw [BatchCommandProcessor.ProcessCommand]
    simp only [if_pos hcond', if_pos hcond]
    refine ⟨⟨(BatchCommandProcessor.DumpBatch (BatchCommandProcessor.notify
      { e with m_commands := e.m_commands ++ [c] }).1).2, rfl, ?_⟩, rfl⟩
    rw [flushedBatches_dump]
    simp [BatchCommandProcessor.notify]
  · have hcond' : ¬ ((BatchCommandProcessor.notify
        { e with m_commands := e.m_commands ++ [c] }).1.m_blockForced = false ∧
        (BatchCommandProcessor.notify
          { e with m_commands := e.m_commands ++ [c] }).1.m_bulkSize ≤
        (BatchCommandProcessor.notify
          { e with m_commands := e.m_commands ++ [c] }).1.m_commands.length) := by
      simpa [BatchCommandProcessor.notify] using hcond
    rw [BatchCommandProcessor.ProcessCommand]
    simp only [if_neg hcond', if_neg hcond]
    exact ⟨⟨[], by simp [BatchCommandProcessor.notify, flushedBatches], rfl⟩, rfl⟩

/-! ### C5 -/

/-- C5: a flush of a non-empty pending batch dumps that batch, invoking the
flush action of every live subscriber exactly once — one event per registry
entry, each with the snapshot that subscriber holds — and all these
invocations come before the engine proceeds (the join barrier of the thread
fan-out, modelled by the event order): only after them is the pending batch
cleared and every subscriber notified with the now-empty snapshot. -/
theorem C5_flush_fanout (e : BatchCommandProcessor) (h : e.m_commands ≠ []) :
    (BatchCommandProcessor.DumpBatch e).2 =
      (Event.flushBatch e.m_commands ::
        e.m_subscribers.map fun s => Event.flushAction s.id s.m_commands) ++
      e.m_subscribers.map (fun s => Event.update s.id []) ∧
    (BatchCommandProcessor.DumpBatch e).1.m_commands = [] := by
  have hE : e.m_commands.isEmpty = false := by
    cases hc : e.m_commands with
    | nil => exact absurd hc h
    | cons a t => rfl
  refine ⟨?_, rfl⟩
  rw [dumpBatch_events, hE]
  rfl

/-- C5 witness: the flush fan-out at a concrete engine holding one pending
command and one subscriber whose snapshot is that same batch. -/
theorem C5_flush_fanout_witness :
    (BatchCommandProcessor.DumpBatch
      { m_bulkSize := 3
        m_blockForced := false
        m_commands := [{ text := "a", timeStamp := 7 }]
        m_subscribers := [{ id := 0, m_commands := [{ text := "a", timeStamp := 7 }] }] }).2 =
      (Event.flushBatch [{ text := "a", timeStamp := 7 }] ::
        [({ id := 0, m_commands := [{ text := "a", timeStamp := 7 }] } : SubState)].map
          fun s => Event.flushAction s.id s.m_commands) ++
      [({ id := 0, m_commands := [{ text := "a", timeStamp := 7 }] } : SubState)].map
        (fun s => Event.update s.id []) ∧
    (BatchCommandProcessor.DumpBatch
      { m_bulkSize := 3
        m_blockForced := false
        m_commands := [{ text := "a", timeStamp := 7 }]
        m_subscribers := [{ id := 0, m_commands := [{ text := "a", timeStamp := 7 }] }] }).1.m_commands = [] :=
  C5_flush_fanout
    { m_bulkSize := 3
      m_blockForced := false
      m_commands := [{ text := "a", timeStamp := 7 }]
      m_subscribers := [{ id := 0, m_commands := [{ text := "a", timeStamp := 7 }] }] }
    (by decide)

/-! ### C8 -/

theorem flushedBatches_unsubscribe_map (l : List SubState) :
    flushedBatches (l.map fun s => Event.unsubscribeEv s.id) = [] := by
  induction l with
  | nil => rfl
  | cons a t _ => simp [flushedBatches, List.filterMap_cons]

/-- C8: on engine teardown, when the forced-hold flag is not set the whole
dump of the pending batch — exactly one batch flush when something is
pending, observed by every live subscriber — happens before any subscriber
handle is released; when the flag is set (an open block at teardown) the
pending commands are dropped without any flush. Afterwards the registry is
empty. -/
theorem C8_teardown (e : BatchCommandProcessor) :
    (BatchCommandProcessor.destructor e).2 =
      (if e.m_blockForced then [] else (BatchCommandProcessor.DumpBatch e).2) ++
        e.m_subscribers.map (fun s => Event.unsubscribeEv s.id) ∧
    flushedBatches (BatchCommandProcessor.destructor e).2 =
      (if e.m_blockForced = false ∧ e.m_commands.isEmpty = false
       then [e.m_commands] else []) ∧
    (BatchCommandProcessor.destructor e).1.m_subscribers = [] := by
  cases hf : e.m_blockForced with
  | true =>
      refine ⟨?_, ?_, rfl⟩
      · rw [BatchCommandProcessor.destructor]
        simp [hf]
      · rw [BatchCommandProcessor.destructor]
        simp [hf, flushedBatches_unsubscribe_map]
  | false =>
      have hev : (BatchCommandProcessor.destructor e).2 =
          (BatchCommandProcessor.DumpBatch e).2 ++
            e.m_subscribers.map (fun s => Event.unsubscribeEv s.id) := by
        rw [BatchCommandProcessor.destructor]
        simp only [hf, Bool.false_eq_true, if_neg (by simp : ¬ False)]
        rw [dumpBatch_state]
        simp [List.map_map, Function.comp]
      refine ⟨by rw [hev]; simp [hf], ?_, rfl⟩
      rw [hev, flushedBatches_append, flushedBatches_dump,
        flushedBatches_unsubscribe_map]
      cases hc : e.m_commands.isEmpty <;> simp [hc]

/-! ### Session and engine step lemmas -/

theorem session_step_pass (s : BatchConsoleInput) (c : Command)
    (h1 : ¬ c.text = START_BLOCK) (h2 : ¬ c.text = END_BLOCK) :
    s.ProcessCommand c =
      ({ s with m_commandProcessor := (s.m_commandProcessor.ProcessCommand c).1 },
       (s.m_commandProcessor.ProcessCommand c).2) := by
  rw [BatchConsoleInput.ProcessCommand, if_neg h1, if_neg h2]

theorem session_step_open_deep (s : BatchConsoleInput) (c : Command)
    (hc : c.text = START_BLOCK) (hd : ¬ s.m_blockDepth = 0) :
    s.ProcessCommand c = ({ s with m_blockDepth := s.m_blockDepth + 1 }, []) := by
  rw [BatchConsoleInput.ProcessCommand, if_pos hc, if_neg hd]

theorem session_step_close_deep (s : BatchConsoleInput) (c : Command)
    (hc : c.text = END_BLOCK) (hd : ¬ s.m_blockDepth - 1 = 0) :
    s.ProcessCommand c = ({ s with m_blockDepth := s.m_blockDepth - 1 }, []) := by
  have h1 : ¬ c.text = START_BLOCK := by rw [hc]; decide
  rw [BatchConsoleInput.ProcessCommand, if_neg h1, if_pos hc, if_neg hd]

theorem session_step_open_zero (s : BatchConsoleInput) (c : Command)
    (hc : c.text = START_BLOCK) (hd : s.m_blockDepth = 0) :
    s.ProcessCommand c =
      ({ m_blockDepth := s.m_blockDepth + 1,
         m_commandProcessor := (s.m_commandProcessor.StartBlock).1 },
       (s.m_commandProcessor.StartBlock).2) := by
  rw [BatchConsoleInput.ProcessCommand, if_pos hc, if_pos hd]

theorem session_step_close_one (s : BatchConsoleInput) (c : Command)
    (hc : c.text = END_BLOCK) (hd : s.m_blockDepth - 1 = 0) :
    s.ProcessCommand c =
      ({ m_blockDepth := s.m_blockDepth - 1,
         m_commandProcessor := (s.m_commandProcessor.FinishBlock).1 },
       (s.m_commandProcessor.FinishBlock).2) := by
  have h1 : ¬ c.text = START_BLOCK := by rw [hc]; decide
  rw [BatchConsoleInput.ProcessCommand, if_neg h1, if_pos hc, if_pos hd]

/-- One engine submission, summarised: the hold flag and threshold are
unchanged; the batch is appended and then cleared exactly when the dump
condition holds, in which case the appended batch is the one dumped. -/
theorem engine_step_state (e : BatchCommandProcessor) (c : Command) :
    (BatchCommandProcessor.ProcessCommand e c).1.m_blockForced = e.m_blockForced ∧
    (BatchCommandProcessor.ProcessCommand e c).1.m_bulkSize = e.m_bulkSize ∧
    (BatchCommandProcessor.ProcessCommand e c).1.m_commands =
      (if e.m_blockForced = false ∧ e.m_bulkSize ≤ e.m_commands.length + 1
       then [] else e.m_commands ++ [c]) ∧
    flushedBatches (BatchCommandProcessor.ProcessCommand e c).2 =
      (if e.m_blockForced = false ∧ e.m_bulkSize ≤ e.m_commands.length + 1
       then [e.m_commands ++ [c]] else []) := by
  by_cases hcond : e.m_blockForced = false ∧ e.m_bulkSize ≤ e.m_commands.length + 1
  · have hcond' : ((BatchCommandProcessor.notify
        { e with m_commands := e.m_commands ++ [c] }).1.m_blockForced = false ∧
        (BatchCommandProcessor.notify
          { e with m_commands := e.m_commands ++ [c] }).1.m_bulkSize ≤
        (BatchCommandProcessor.notify
          { e with m_commands := e.m_commands ++ [c] }).1.m_commands.length) := by
      simpa [BatchCommandProcessor.notify] using hcond
    rw [BatchCommandProcessor.ProcessCommand]
    simp only [if_pos hcond', if_pos hcond]
    refine ⟨hcond.1 ▸ rfl, rfl, rfl, ?_⟩
    have h1 : flushedBatches (BatchCommandProcessor.notify
        { e with m_commands := e.m_commands ++ [c] }).2 = [] :=
      flushedBatches_update_map _ _
    rw [flushedBatches_append, h1, flushedBatches_dump]
    simp [BatchCommandProcessor.notify]
  · have hcond' : ¬ ((BatchCommandProcessor.notify
        { e with m_commands := e.m_commands ++ [c] }).1.m_blockForced = false ∧
        (BatchCommandProcessor.notify
          { e with m_commands := e.m_commands ++ [c] }).1.m_bulkSize ≤
        (BatchCommandProcessor.notify
          { e with m_commands := e.m_commands ++ [c] }).1.m_commands.length) := by
      simpa [BatchCommandProcessor.notify] using hcond
    rw [BatchCommandProcessor.ProcessCommand]
    simp only [if_neg hcond', if_neg hcond]
    exact ⟨rfl, rfl, rfl, flushedBatches_update_map _ _⟩

/-! ### C3 -/

/-- Running a marker-free command sequence through the session keeps the
hold flag down and the pending batch strictly below the threshold, and
conserves commands: the dumped batches followed by the still-pending tail
are exactly the initial pending batch followed by the input. -/
theorem runAll_no_markers (cs : List Command) : ∀ (s : BatchConsoleInput),
    (∀ c ∈ cs, ¬ c.text = START_BLOCK ∧ ¬ c.text = END_BLOCK) →
    s.m_commandProcessor.m_blockForced = false →
    0 < s.m_commandProcessor.m_bulkSize →
    s.m_commandProcessor.m_commands.length < s.m_commandProcessor.m_bulkSize →
    (BatchConsoleInput.runAll s cs).1.m_commandProcessor.m_blockForced = false ∧
    (BatchConsoleInput.runAll s cs).1.m_commandProcessor.m_bulkSize =
      s.m_commandProcessor.m_bulkSize ∧
    (BatchConsoleInput.runAll s cs).1.m_commandProcessor.m_commands.length <
      s.m_commandProcessor.m_bulkSize ∧
    (flushedBatches (BatchConsoleInput.runAll s cs).2).flatten ++
      (BatchConsoleInput.runAll s cs).1.m_commandProcessor.m_commands =
      s.m_commandProcessor.m_commands ++ cs := by
  induction cs with
  | nil =>
      intro s _ hf _ hlen
      exact ⟨hf, rfl, hlen, by simp [BatchConsoleInput.runAll, flushedBatches]⟩
  | cons c cs ih =>
      intro s hm hf hb hlen
      obtain ⟨hc1, hc2⟩ := hm c (List.mem_cons_self c cs)
      have hstep := session_step_pass s c hc1 hc2
      have hE := engine_step_state s.m_commandProcessor c
      rw [hf] at hE
      obtain ⟨hEf, hEb, hEc, hEflush⟩ := hE
      have hb1 : 0 < (s.m_commandProcessor.ProcessCommand c).1.m_bulkSize := by
        rw [hEb]; exact hb
      have hlen1 : (s.m_commandProcessor.ProcessCommand c).1.m_commands.length <
          (s.m_commandProcessor.ProcessCommand c).1.m_bulkSize := by
        rw [hEb, hEc]
        by_cases hth : s.m_commandProcessor.m_bulkSize ≤
            s.m_commandProcessor.m_commands.length + 1
        · rw [if_pos ⟨rfl, hth⟩]
          simpa using hb
        · rw [if_neg (fun h => hth h.2)]
          simp only [List.length_append, List.length_cons, List.length_nil]
          omega
      have hIH := ih
        { s with m_commandProcessor := (s.m_commandProcessor.ProcessCommand c).1 }
        (fun x hx => hm x (List.mem_cons_of_mem c hx)) hEf hb1 hlen1
      obtain ⟨ihf, ihb, ihlen, ihjoin⟩ := hIH
      have ihjoin2 : (flushedBatches (BatchConsoleInput.runAll
            { s with m_commandProcessor := (s.m_commandProcessor.ProcessCommand c).1 } cs).2).flatten ++
          (BatchConsoleInput.runAll
            { s with m_commandProcessor := (s.m_commandProcessor.ProcessCommand c).1 } cs).1.m_commandProcessor.m_commands =
          (s.m_commandProcessor.ProcessCommand c).1.m_commands ++ cs := ihjoin
      have key : (flushedBatches ((s.m_commandProcessor.ProcessCommand c).2 ++
            (BatchConsoleInput.runAll
              { s with m_commandProcessor := (s.m_commandProcessor.ProcessCommand c).1 } cs).2)).flatten ++
          (BatchConsoleInput.runAll
            { s with m_commandProcessor := (s.m_commandProcessor.ProcessCommand c).1 } cs).1.m_commandProcessor.m_commands =
          s.m_commandProcessor.m_commands ++ c :: cs := by
        rw [flushedBatches_append, List.flatten_append, List.append_assoc, ihjoin2,
          hEflush, hEc]
        by_cases hth : s.m_commandProcessor.m_bulkSize ≤
            s.m_commandProcessor.m_commands.length + 1
        · rw [if_pos ⟨rfl, hth⟩, if_pos ⟨rfl, hth⟩]
          simp
        · rw [if_neg (fun h => hth h.2), if_neg (fun h => hth h.2)]
          simp
      have hrw : BatchConsoleInput.runAll s (c :: cs) =
          ((BatchConsoleInput.runAll (s.ProcessCommand c).1 cs).1,
           (s.ProcessCommand c).2 ++
             (BatchConsoleInput.runAll (s.ProcessCommand c).1 cs).2) := rfl
      rw [hrw, hstep]
      exact ⟨ihf, ihb.trans hEb, lt_of_lt_of_eq ihlen hEb, key⟩

theorem flushedBatches_destructor (e : BatchCommandProcessor)
    (hf : e.m_blockForced = false) :
    flushedBatches (BatchCommandProcessor.destructor e).2 =
      if e.m_commands.isEmpty then [] else [e.m_commands] := by
  rw [BatchCommandProcessor.destructor]
  simp only [hf, Bool.false_eq_true, if_false]
  rw [flushedBatches_append, flushedBatches_dump, dumpBatch_state]
  rw [List.map_map]
  have : flushedBatches (e.m_subscribers.map
      ((fun s => Event.unsubscribeEv s.id) ∘ fun s => { s with m_commands := [] })) =
      flushedBatches (e.m_subscribers.map fun s => Event.unsubscribeEv s.id) := rfl
  rw [this, flushedBatches_unsubscribe_map]
  simp

/-- C3: a marker-free input of at least threshold-many commands, fed
through one full session lifetime (`connect`, process all, disconnect),
produces at least one flush, and the dumped batches concatenated in flush
order are exactly the input — no command duplicated, none lost. -/
theorem C3_no_marker_stream (bulk : Nat) (cs : List Command)
    (hb : 0 < bulk) (hlen : bulk ≤ cs.length)
    (hm : ∀ c ∈ cs, ¬ c.text = START_BLOCK ∧ ¬ c.text = END_BLOCK) :
    flushedBatches (BatchConsoleInput.runAndDisconnect (connect bulk) cs) ≠ [] ∧
    (flushedBatches (BatchConsoleInput.runAndDisconnect (connect bulk) cs)).flatten = cs := by
  obtain ⟨hf, hbulk, hlt, hjoin⟩ :=
    runAll_no_markers cs (connect bulk) hm rfl hb (by simpa using hb)
  have hflat : (flushedBatches (BatchConsoleInput.runAndDisconnect (connect bulk) cs)).flatten = cs := by
    rw [BatchConsoleInput.runAndDisconnect, flushedBatches_append, List.flatten_append,
      flushedBatches_destructor _ hf]
    cases hE : (BatchConsoleInput.runAll (connect bulk) cs).1.m_commandProcessor.m_commands.isEmpty with
    | true =>
        have : (BatchConsoleInput.runAll (connect bulk) cs).1.m_commandProcessor.m_commands = [] := by
          simpa [List.isEmpty_iff] using hE
        rw [this] at hjoin
        simp only [if_pos rfl]
        simpa using hjoin
    | false =>
        rw [if_neg (by simp [hE])]
        simpa using hjoin
  refine ⟨?_, hflat⟩
  intro hnil
  rw [hnil] at hflat
  have : cs = [] := hflat.symm
  rw [this] at hlen
  simp at hlen
  omega

/-- C3 witness: threshold 2 and the marker-free input a, b, c — the flushed
batches are [a, b] then [c] (the latter at disconnect), concatenating to
the input. -/
theorem C3_no_marker_stream_witness :
    flushedBatches (BatchConsoleInput.runAndDisconnect (connect 2)
      [{ text := "a", timeStamp := 0 }, { text := "b", timeStamp := 0 },
       { text := "c", timeStamp := 0 }]) ≠ [] ∧
    (flushedBatches (BatchConsoleInput.runAndDisconnect (connect 2)
      [{ text := "a", timeStamp := 0 }, { text := "b", timeStamp := 0 },
       { text := "c", timeStamp := 0 }])).flatten =
      [{ text := "a", timeStamp := 0 }, { text := "b", timeStamp := 0 },
       { text := "c", timeStamp := 0 }] :=
  C3_no_marker_stream 2
    [{ text := "a", timeStamp := 0 }, { text := "b", timeStamp := 0 },
     { text := "c", timeStamp := 0 }]
    (by decide) (by decide) (by decide)

/-! ### C6 -/

/-- Inside an open block (session depth `d + 1`, hold flag up), a properly
nested marker sequence causes no dump at all — inner markers never reach
the engine and the raised hold flag suppresses size-triggered flushes — it
only appends its passthrough commands to the pending batch, and the depth
returns to 1. -/
theorem runAll_in_block (inside : List Command) : ∀ (s : BatchConsoleInput) (d : Nat),
    s.m_blockDepth = (d : Int) + 1 →
    s.m_commandProcessor.m_blockForced = true →
    nestedOK d inside = true →
    (BatchConsoleInput.runAll s inside).1.m_blockDepth = 1 ∧
    (BatchConsoleInput.runAll s inside).1.m_commandProcessor.m_blockForced = true ∧
    (BatchConsoleInput.runAll s inside).1.m_commandProcessor.m_commands =
      s.m_commandProcessor.m_commands ++ passthroughs inside ∧
    flushedBatches (BatchConsoleInput.runAll s inside).2 = [] := by
  induction inside with
  | nil =>
      intro s d hd hf hn
      have hd0 : d = 0 := by simpa [nestedOK] using hn
      subst hd0
      exact ⟨by simpa using hd, hf,
        by simp [BatchConsoleInput.runAll, passthroughs],
        by simp [BatchConsoleInput.runAll, flushedBatches]⟩
  | cons c cs ih =>
      intro s d hd hf hn
      have hrw : BatchConsoleInput.runAll s (c :: cs) =
          ((BatchConsoleInput.runAll (s.ProcessCommand c).1 cs).1,
           (s.ProcessCommand c).2 ++
             (BatchConsoleInput.runAll (s.ProcessCommand c).1 cs).2) := rfl
      by_cases h1 : c.text = START_BLOCK
      · have hne : ¬ s.m_blockDepth = 0 := by rw [hd]; omega
        have hstep := session_step_open_deep s c h1 hne
        have hn' : nestedOK (d + 1) cs = true := by
          rw [nestedOK] at hn
          simpa [h1] using hn
        have hIH := ih { s with m_blockDepth := s.m_blockDepth + 1 } (d + 1)
          (by show s.m_blockDepth + 1 = ((d + 1 : Nat) : Int) + 1
              rw [hd]; push_cast; ring)
          hf hn'
        obtain ⟨ih1, ih2, ih3, ih4⟩ := hIH
        have hp : passthroughs (c :: cs) = passthroughs cs := by
          simp [passthroughs, h1]
        rw [hrw, hstep, hp]
        refine ⟨ih1, ih2, ih3, ?_⟩
        show flushedBatches ([] ++ (BatchConsoleInput.runAll
          { s with m_blockDepth := s.m_blockDepth + 1 } cs).2) = []
        rw [List.nil_append]
        exact ih4
      · by_cases h2 : c.text = END_BLOCK
        · cases d with
          | zero =>
              rw [nestedOK, if_neg h1, if_pos h2, if_pos rfl] at hn
              exact absurd hn (by simp)
          | succ k =>
              have hn' : nestedOK k cs = true := by
                rw [nestedOK] at hn
                simpa [h1, h2] using hn
              have hne : ¬ s.m_blockDepth - 1 = 0 := by rw [hd]; push_cast; omega
              have hstep := session_step_close_deep s c h2 hne
              have hIH := ih { s with m_blockDepth := s.m_blockDepth - 1 } k
                (by show s.m_blockDepth - 1 = (k : Int) + 1
                    rw [hd]; push_cast; ring)
                hf hn'
              obtain ⟨ih1, ih2, ih3, ih4⟩ := hIH
              have hp : passthroughs (c :: cs) = passthroughs cs := by
                simp [passthroughs, h2]
              rw [hrw, hstep, hp]
              refine ⟨ih1, ih2, ih3, ?_⟩
              show flushedBatches ([] ++ (BatchConsoleInput.runAll
                { s with m_blockDepth := s.m_blockDepth - 1 } cs).2) = []
              rw [List.nil_append]
              exact ih4
        · have hstep := session_step_pass s c h1 h2
          have hE := engine_step_state s.m_commandProcessor c
          rw [hf] at hE
          have hcf : ¬ ((true : Bool) = false ∧ s.m_commandProcessor.m_bulkSize ≤
              s.m_commandProcessor.m_commands.length + 1) := by simp
          rw [if_neg hcf, if_neg hcf] at hE
          obtain ⟨hEf, hEb, hEc, hEflush⟩ := hE
          have hn' : nestedOK d cs = true := by
            rw [nestedOK] at hn
            simpa [h1, h2] using hn
          have hIH := ih
            { s with m_commandProcessor := (s.m_commandProcessor.ProcessCommand c).1 } d
            hd hEf hn'
          obtain ⟨ih1, ih2, ih3, ih4⟩ := hIH
          have hp : passthroughs (c :: cs) = c :: passthroughs cs := by
            simp [passthroughs, h1, h2]
          rw [hrw, hstep, hp]
          refine ⟨ih1, ih2, ?_, ?_⟩
          · refine ih3.trans ?_
            rw [hEc, List.append_assoc]
            simp
          · show flushedBatches ((s.m_commandProcessor.ProcessCommand c).2 ++
              (BatchConsoleInput.runAll { s with
                m_commandProcessor := (s.m_commandProcessor.ProcessCommand c).1 } cs).2) = []
            rw [flushedBatches_append, hEflush, ih4]
            rfl

theorem flushedBatches_finishBlock (e : BatchCommandProcessor) :
    flushedBatches (BatchCommandProcessor.FinishBlock e).2 =
      if e.m_commands.isEmpty then [] else [e.m_commands] := by
  show flushedBatches (Event.finishBlockCall ::
    (BatchCommandProcessor.DumpBatch { e with m_blockForced := false }).2) = _
  rw [flushedBatches_cons_finishBlockCall, flushedBatches_dump]

/-- C6: around a properly nested Open…Close pair entered at depth 0, no
size-triggered flush (indeed, no dump at all) happens strictly between the
Open and the Close, however many commands are submitted inside; at the
Close exactly one batch — the passthrough commands submitted inside the
block — is dumped if there were any, and none is dumped if the block was
empty. -/
theorem C6_block_suppresses_flushes (s : BatchConsoleInput)
    (copen cclose : Command) (inside : List Command)
    (hd : s.m_blockDepth = 0) (ho : copen.text = START_BLOCK)
    (hc : cclose.text = END_BLOCK) (hn : nestedOK 0 inside = true) :
    flushedBatches (BatchConsoleInput.runAll (s.ProcessCommand copen).1 inside).2 = [] ∧
    flushedBatches (((BatchConsoleInput.runAll
        (s.ProcessCommand copen).1 inside).1).ProcessCommand cclose).2 =
      (if (passthroughs inside).isEmpty then [] else [passthroughs inside]) := by
  have hstep := session_step_open_zero s copen ho hd
  have hs1d : (s.ProcessCommand copen).1.m_blockDepth = ((0 : Nat) : Int) + 1 := by
    rw [hstep]
    show s.m_blockDepth + 1 = ((0 : Nat) : Int) + 1
    rw [hd]
    norm_num
  have hs1f : (s.ProcessCommand copen).1.m_commandProcessor.m_blockForced = true := by
    rw [hstep]
    rfl
  have hs1c : (s.ProcessCommand copen).1.m_commandProcessor.m_commands = [] := by
    rw [hstep]
    rfl
  obtain ⟨H1, H2, H3, H4⟩ :=
    runAll_in_block inside (s.ProcessCommand copen).1 0 hs1d hs1f hn
  refine ⟨H4, ?_⟩
  have hcomm : (BatchConsoleInput.runAll
      (s.ProcessCommand copen).1 inside).1.m_commandProcessor.m_commands =
      passthroughs inside := by
    rw [H3, hs1c, List.nil_append]
  have hclose : (BatchConsoleInput.runAll
      (s.ProcessCommand copen).1 inside).1.m_blockDepth - 1 = 0 := by
    rw [H1]
    norm_num
  have hcstep := session_step_close_one _ cclose hc hclose
  rw [hcstep]
  show flushedBatches ((BatchConsoleInput.runAll
      (s.ProcessCommand copen).1 inside).1.m_commandProcessor.FinishBlock).2 = _
  rw [flushedBatches_finishBlock, hcomm]

/-- C6 witness: threshold 1, a fresh session, the block Open, "x", Close —
no dump inside the block even though the pending size reaches the
threshold, and the single batch ["x"] is dumped at the Close. -/
theorem C6_block_suppresses_flushes_witness :
    flushedBatches (BatchConsoleInput.runAll
      ((connect 1).ProcessCommand { text := START_BLOCK, timeStamp := 0 }).1
      [{ text := "x", timeStamp := 0 }]).2 = [] ∧
    flushedBatches (((BatchConsoleInput.runAll
        ((connect 1).ProcessCommand { text := START_BLOCK, timeStamp := 0 }).1
        [{ text := "x", timeStamp := 0 }]).1).ProcessCommand
          { text := END_BLOCK, timeStamp := 0 }).2 =
      (if (passthroughs [{ text := "x", timeStamp := 0 }]).isEmpty then []
       else [passthroughs [{ text := "x", timeStamp := 0 }]]) :=
  C6_block_suppresses_flushes (connect 1)
    { text := START_BLOCK, timeStamp := 0 } { text := END_BLOCK, timeStamp := 0 }
    [{ text := "x", timeStamp := 0 }] rfl rfl rfl (by decide)

/-! ### C10 -/

theorem snapshotsCurrent_notify (e : BatchCommandProcessor) :
    SnapshotsCurrent (BatchCommandProcessor.notify e).1 := by
  intro sub hsub
  have hsub' : sub ∈ e.m_subscribers.map
      fun s => { s with m_commands := e.m_commands } := hsub
  obtain ⟨a, ha, rfl⟩ := List.mem_map.mp hsub'
  rfl

theorem snapshotsCurrent_dump (e : BatchCommandProcessor) :
    SnapshotsCurrent (BatchCommandProcessor.DumpBatch e).1 :=
  snapshotsCurrent_notify { e with m_commands := [] }

theorem noEmptyFlushAction_nil : NoEmptyFlushAction [] :=
  fun _ _ h => absurd h (List.not_mem_nil _)

theorem noEmptyFlushAction_updates (l : List SubState) (snap : List Command) :
    NoEmptyFlushAction (l.map fun s => Event.update s.id snap) :=
  fun sub sn h => absurd h (flushAction_not_mem_update_map l snap sub sn)

theorem noEmptyFlushAction_append (a b : List Event)
    (ha : NoEmptyFlushAction a) (hb : NoEmptyFlushAction b) :
    NoEmptyFlushAction (a ++ b) := by
  intro sub sn h
  rcases List.mem_append.mp h with h2 | h2
  · exact ha sub sn h2
  · exact hb sub sn h2

theorem noEmptyFlushAction_dump (e : BatchCommandProcessor)
    (hs : SnapshotsCurrent e) :
    NoEmptyFlushAction (BatchCommandProcessor.DumpBatch e).2 := by
  intro sub sn h
  have h' : Event.flushAction sub sn ∈
      (if e.m_commands.isEmpty then [] else
        Event.flushBatch e.m_commands ::
          e.m_subscribers.map fun s => Event.flushAction s.id s.m_commands)
      ++ e.m_subscribers.map fun s => Event.update s.id [] := by
    rw [← dumpBatch_events]
    exact h
  rcases List.mem_append.mp h' with h2 | h2
  · cases hE : e.m_commands.isEmpty with
    | true =>
        rw [hE] at h2
        simp at h2
    | false =>
        rw [hE] at h2
        simp only [Bool.false_eq_true, if_false] at h2
        rcases List.mem_cons.mp h2 with h3 | h3
        · exact absurd h3 (by simp)
        · obtain ⟨a, ha, heq⟩ := List.mem_map.mp h3
          injection heq with h4 h5
          rw [← h5, hs a ha]
          intro hnil
          rw [hnil] at hE
          simp at hE
  · exact absurd h2 (flushAction_not_mem_update_map _ _ _ _)

theorem noEmptyFlushAction_startBlock (e : BatchCommandProcessor)
    (hs : SnapshotsCurrent e) :
    NoEmptyFlushAction (BatchCommandProcessor.StartBlock e).2 := by
  intro sub sn h
  have h' : Event.flushAction sub sn ∈ Event.startBlockCall ::
      (BatchCommandProcessor.DumpBatch { e with m_blockForced := true }).2 := h
  rcases List.mem_cons.mp h' with h2 | h2
  · exact absurd h2 (by simp)
  · exact noEmptyFlushAction_dump { e with m_blockForced := true } hs sub sn h2

theorem noEmptyFlushAction_finishBlock (e : BatchCommandProcessor)
    (hs : SnapshotsCurrent e) :
    NoEmptyFlushAction (BatchCommandProcessor.FinishBlock e).2 := by
  intro sub sn h
  have h' : Event.flushAction sub sn ∈ Event.finishBlockCall ::
      (BatchCommandProcessor.DumpBatch { e with m_blockForced := false }).2 := h
  rcases List.mem_cons.mp h' with h2 | h2
  · exact absurd h2 (by simp)
  · exact noEmptyFlushAction_dump { e with m_blockForced := false } hs sub sn h2

theorem noEmptyFlushAction_engine_process (e : BatchCommandProcessor) (c : Command) :
    NoEmptyFlushAction (BatchCommandProcessor.ProcessCommand e c).2 ∧
    SnapshotsCurrent (BatchCommandProcessor.ProcessCommand e c).1 := by
  simp only [BatchCommandProcessor.ProcessCommand]
  split
  · exact ⟨noEmptyFlushAction_append _ _
      (noEmptyFlushAction_updates
        ({ e with m_commands := e.m_commands ++ [c] } : BatchCommandProcessor).m_subscribers
        (e.m_commands ++ [c]))
      (noEmptyFlushAction_dump _ (snapshotsCurrent_notify _)),
     snapshotsCurrent_dump _⟩
  · exact ⟨noEmptyFlushAction_updates
      ({ e with m_commands := e.m_commands ++ [c] } : BatchCommandProcessor).m_subscribers
      (e.m_commands ++ [c]),
     snapshotsCurrent_notify _⟩

theorem noEmptyFlushAction_session_step (s : BatchConsoleInput) (c : Command)
    (hs : SnapshotsCurrent s.m_commandProcessor) :
    NoEmptyFlushAction (s.ProcessCommand c).2 ∧
    SnapshotsCurrent (s.ProcessCommand c).1.m_commandProcessor := by
  rw [BatchConsoleInput.ProcessCommand]
  split
  · split
    · exact ⟨noEmptyFlushAction_startBlock _ hs, snapshotsCurrent_dump _⟩
    · exact ⟨noEmptyFlushAction_nil, hs⟩
  · split
    · split
      · exact ⟨noEmptyFlushAction_finishBlock _ hs, snapshotsCurrent_dump _⟩
      · exact ⟨noEmptyFlushAction_nil, hs⟩
    · exact noEmptyFlushAction_engine_process s.m_commandProcessor c

theorem noEmptyFlushAction_runAll (cs : List Command) : ∀ (s : BatchConsoleInput),
    SnapshotsCurrent s.m_commandProcessor →
    NoEmptyFlushAction (BatchConsoleInput.runAll s cs).2 ∧
    SnapshotsCurrent (BatchConsoleInput.runAll s cs).1.m_commandProcessor := by
  induction cs with
  | nil => exact fun s hs => ⟨noEmptyFlushAction_nil, hs⟩
  | cons c cs ih =>
      intro s hs
      obtain ⟨h1, h2⟩ := noEmptyFlushAction_session_step s c hs
      obtain ⟨h3, h4⟩ := ih (s.ProcessCommand c).1 h2
      exact ⟨noEmptyFlushAction_append _ _ h1 h3, h4⟩

theorem noEmptyFlushAction_destructor (e : BatchCommandProcessor)
    (hs : SnapshotsCurrent e) :
    NoEmptyFlushAction (BatchCommandProcessor.destructor e).2 := by
  intro sub sn h
  have h' : Event.flushAction sub sn ∈
      (if e.m_blockForced then (e, ([] : List Event))
       else BatchCommandProcessor.DumpBatch e).2 ++
      (if e.m_blockForced then (e, ([] : List Event))
       else BatchCommandProcessor.DumpBatch e).1.m_subscribers.map
        (fun s => Event.unsubscribeEv s.id) := h
  rcases List.mem_append.mp h' with h2 | h2
  · cases hf : e.m_blockForced with
    | true =>
        rw [hf] at h2
        simp at h2
    | false =>
        rw [hf] at h2
        simp only [Bool.false_eq_true, if_false] at h2
        exact noEmptyFlushAction_dump e hs sub sn h2
  · obtain ⟨a, ha, heq⟩ := List.mem_map.mp h2
    exact absurd heq (by simp)

/-- No flush action in a whole wired-session lifetime ever runs on an empty
snapshot: the constructor registers both subscribers before any command, so
every subscriber's snapshot tracks the pending batch, and batches are only
dumped when non-empty. -/
theorem noEmptyFlushAction_lifetime (bulk : Nat) (cs : List Command) :
    NoEmptyFlushAction (BatchConsoleInput.runAndDisconnect (connect bulk) cs) := by
  have hs0 : SnapshotsCurrent (connect bulk).m_commandProcessor := by
    intro sub hsub
    have hsub' : sub ∈ [({ id := 0, m_commands := [] } : SubState),
        { id := 1, m_commands := [] }] := hsub
    rcases List.mem_cons.mp hsub' with rfl | h2
    · rfl
    · rcases List.mem_cons.mp h2 with rfl | h3
      · rfl
      · exact absurd h3 (List.not_mem_nil _)
  obtain ⟨h1, h2⟩ := noEmptyFlushAction_runAll cs (connect bulk) hs0
  exact noEmptyFlushAction_append _ _ h1 (noEmptyFlushAction_destructor _ h2)

/-- C10: in the wired session — both subscribers registered at construction,
before any command — whenever the `ReportWriter` (subscriber 0) has its
flush action invoked, the snapshot it acts on is non-empty, so
`GetFilename`'s read of element 0 of the snapshot is in bounds (the
modelled `GetFilename` returns a filename, never the out-of-bounds `none`). -/
theorem C10_reportwriter_inbounds (bulk : Nat) (cs : List Command)
    (snap : List Command) (tid : Nat)
    (h : Event.flushAction 0 snap ∈
      BatchConsoleInput.runAndDisconnect (connect bulk) cs) :
    (ReportWriter.GetFilename snap tid).isSome = true := by
  have hne := noEmptyFlushAction_lifetime bulk cs 0 snap h
  cases snap with
  | nil => exact absurd rfl hne
  | cons a t => rfl

/-- C10 witness: with threshold 1 and input "a", the ReportWriter's flush
action runs on the snapshot ["a"], and `GetFilename` produces a filename. -/
theorem C10_reportwriter_inbounds_witness :
    (Event.flushAction 0 [{ text := "a", timeStamp := 0 }] ∈
      BatchConsoleInput.runAndDisconnect (connect 1)
        [{ text := "a", timeStamp := 0 }]) ∧
    (ReportWriter.GetFilename [{ text := "a", timeStamp := 0 }] 0).isSome = true :=
  ⟨by decide,
   C10_reportwriter_inbounds 1 [{ text := "a", timeStamp := 0 }]
     [{ text := "a", timeStamp := 0 }] 0 (by decide)⟩
